import Mathlib

/-!
Shallow embedding of the homeiq-sim live simulation kernel
(`src/homeiqsim/runtime/{clock,state,loop}.py`, `src/homeiqsim/api/services.py`,
`src/homeiqsim/behaviors/{cover,light}.py`) together with theorems settling the
spec claims about it.

Times (both wall-clock and simulated) are modelled as rationals.  Python dicts
are modelled as association lists with in-place-update insertion (matching
Python dict key ordering), and Python dict equality is key-set/value equality
(`attrsEqv`).  Functions that read the ambient wall clock
(`datetime.now(timezone.utc)`, `time.time()`) take that reading as an explicit
`wallNow` argument.
-/

/-- Attribute values (JSON-shaped payloads used by the behavior engines). -/
inductive AttrVal
  | str (s : String)
  | num (n : Int)
  | nums (xs : List Int)
  | strs (xs : List String)
  | boolean (b : Bool)
  deriving DecidableEq, Repr

/-- A Python dict with string keys, as an association list. -/
abbrev Attrs := List (String × AttrVal)

/-- Dict lookup: first binding for the key. -/
def lookupA {α : Type} : List (String × α) → String → Option α
  | [], _ => none
  | (k', v') :: rest, k => if k' = k then some v' else lookupA rest k

/-- Dict update: replace the binding in place if the key exists, else append
(Python dict assignment preserves insertion order). -/
def insertA {α : Type} : List (String × α) → String → α → List (String × α)
  | [], k, v => [(k, v)]
  | (k', v') :: rest, k, v =>
    if k' = k then (k, v) :: rest else (k', v') :: insertA rest k v

/-- Key membership test (Python `k in d`). -/
def memA {α : Type} (d : List (String × α)) (k : String) : Bool :=
  (lookupA d k).isSome

/-- Python dict equality: same keys and same value at every key. -/
def attrsEqv (a b : Attrs) : Bool :=
  (a.map Prod.fst ++ b.map Prod.fst).all fun k => decide (lookupA a k = lookupA b k)

theorem lookupA_insertA_self {α : Type} (d : List (String × α)) (k : String) (v : α) :
    lookupA (insertA d k v) k = some v := by
  induction d with
  | nil => simp [insertA, lookupA]
  | cons hd tl ih =>
    obtain ⟨k', v'⟩ := hd
    by_cases h : k' = k <;> simp [insertA, lookupA, h, ih]

theorem lookupA_insertA_ne {α : Type} (d : List (String × α)) (k k' : String) (v : α)
    (h : k ≠ k') : lookupA (insertA d k v) k' = lookupA d k' := by
  induction d with
  | nil => simp [insertA, lookupA, h]
  | cons hd tl ih =>
    obtain ⟨k₀, v₀⟩ := hd
    by_cases h0 : k₀ = k
    · subst h0
      simp [insertA, lookupA, h]
    · simp [insertA, lookupA, h0, ih]

/-- A single entity state record (`EntityState` in `runtime/state.py`).
`clone()` is the identity in this pure model. -/
structure EntityState where
  entity_id : String
  state : String
  attributes : Attrs
  last_changed : ℚ
  last_updated : ℚ
  context : Option Attrs
  deriving DecidableEq, Repr

/-- The state manager's data (`StateManager` in `runtime/state.py`): current
states, per-entity history, and the history bound. -/
structure StateManager where
  states : List (String × EntityState)
  history : List (String × List EntityState)
  max_history : Nat
  deriving DecidableEq, Repr

/-- A fresh state manager (`StateManager.__init__`). -/
def emptyManager (max_history : Nat) : StateManager :=
  { states := [], history := [], max_history := max_history }

/-- Last `n` elements of a list. -/
def takeLast {α : Type} (n : Nat) (xs : List α) : List α :=
  xs.drop (xs.length - n)

/-- Python list trimming `h[-max:]` guarded by `len(h) > max` (note the Python
`[-0:]` gotcha: slicing with `-0` keeps the whole list). -/
def pyTrim {α : Type} (n : Nat) (h : List α) : List α :=
  if n < h.length then (if n = 0 then h else takeLast n h) else h

/-- Result of a `set_state` call: the updated manager, the produced record,
whether the write was deemed changed, whether listeners were notified, and the
prior record appended to history (when any). -/
structure SetStateResult where
  manager : StateManager
  record : EntityState
  changed : Bool
  notified : Bool
  appended : Option EntityState
  deriving DecidableEq, Repr

/-- `StateManager.set_state` from `runtime/state.py` lines 60-117.  The source
stamps records with `datetime.now(timezone.utc)`, the ambient wall clock, which
is the explicit `wallNow` argument here. -/
def StateManager.set_state (sm : StateManager) (wallNow : ℚ) (entity_id state : String)
    (attributes : Attrs) (context : Option Attrs) (force_update : Bool) : SetStateResult :=
  let old_state := lookupA sm.states entity_id
  let state_changed :=
    match old_state with
    | none => true
    | some o => decide (o.state ≠ state) || !(attrsEqv o.attributes attributes)
  let new_state : EntityState :=
    { entity_id := entity_id
      state := state
      attributes := attributes
      last_changed :=
        if state_changed then wallNow
        else match old_state with
          | some o => o.last_changed
          | none => wallNow
      last_updated := wallNow
      context := context }
  let history :=
    match old_state with
    | some o =>
      if state_changed then
        let h := (lookupA sm.history entity_id).getD []
        insertA sm.history entity_id (pyTrim sm.max_history (h ++ [o]))
      else sm.history
    | none => sm.history
  let appended :=
    match old_state with
    | some o => if state_changed then some o else none
    | none => none
  { manager :=
      { sm with
        states := insertA sm.states entity_id new_state
        history := history }
    record := new_state
    changed := state_changed
    notified := state_changed || force_update
    appended := appended }

/-- The simulation clock's data (`SimulationClock` in `runtime/clock.py`). -/
structure SimulationClock where
  start_time : ℚ
  sim_time : ℚ
  wall_start : ℚ
  speed : ℚ
  paused : Bool
  pause_time : Option ℚ
  pause_sim_time : Option ℚ
  deriving DecidableEq, Repr

/-- `SimulationClock.__init__` (with an explicit wall-clock reading for
`time.time()`). -/
def SimulationClock.init (start_time speed : ℚ) (paused : Bool) (wallNow : ℚ) :
    SimulationClock :=
  { start_time := start_time
    sim_time := start_time
    wall_start := wallNow
    speed := speed
    paused := paused
    pause_time := none
    pause_sim_time := none }

/-- `SimulationClock.now`: frozen pause value while paused, else the anchored
wall-to-sim mapping. -/
def SimulationClock.now (c : SimulationClock) (wallNow : ℚ) : ℚ :=
  if c.paused then c.pause_sim_time.getD c.sim_time
  else c.start_time + (wallNow - c.wall_start) * c.speed

/-- `SimulationClock.pause`: captures `now()` once; a second call is a no-op. -/
def SimulationClock.pause (c : SimulationClock) (wallNow : ℚ) : SimulationClock :=
  if c.paused then c
  else
    { c with
      pause_time := some wallNow
      pause_sim_time := some (c.now wallNow)
      paused := true }

/-- `SimulationClock.resume`: re-anchors at the frozen simulated value. -/
def SimulationClock.resume (c : SimulationClock) (wallNow : ℚ) : SimulationClock :=
  if c.paused then
    { c with
      start_time := c.pause_sim_time.getD c.sim_time
      wall_start := wallNow
      paused := false
      pause_time := none
      pause_sim_time := none }
  else c

/-- `SimulationClock.time_until`: simulated seconds until `target`, or nothing
when `target` is not strictly ahead of `now()`. -/
def SimulationClock.time_until (c : SimulationClock) (wallNow target : ℚ) : Option ℚ :=
  let current := c.now wallNow
  if target ≤ current then none else some (target - current)

/-- `SimulationClock.wall_time_until`: `time_until` divided by the speed. -/
def SimulationClock.wall_time_until (c : SimulationClock) (wallNow target : ℚ) : Option ℚ :=
  match c.time_until wallNow target with
  | none => none
  | some s => some (s / c.speed)

/-- A scheduled task (`ScheduledTask` in `runtime/loop.py`).  The callback and
its bound arguments are abstracted as an opaque numeric token `callbackId`; a
cancelled task has `task_id = none` (the source marks cancellation by setting
`task.task_id = None`). -/
structure ScheduledTask where
  run_at : ℚ
  callbackId : Nat
  repeatI : Option ℚ
  task_id : Option String
  deriving DecidableEq, Repr

/-- Pop the minimum-`run_at` task (the heap pop of `heapq`; ties resolved by
taking the earliest-listed minimum, a refinement of the heap's unspecified tie
order). -/
def popMin : List ScheduledTask → Option (ScheduledTask × List ScheduledTask)
  | [] => none
  | t :: ts =>
    match popMin ts with
    | none => some (t, [])
    | some (m, rest) =>
      if t.run_at ≤ m.run_at then some (t, ts) else some (m, t :: rest)

/-- The rescheduling step of `EventLoop._run_loop` (line 227): a repeating task
is pushed back with `run_at = now + repeat`, where `now` is the simulated time
sampled at the start of the dispatch iteration. -/
def rescheduleTask (now : ℚ) (t : ScheduledTask) (d : ℚ) : ScheduledTask :=
  { t with run_at := now + d }

/-- The inner drain loop of `EventLoop._run_loop` (lines 212-228): with `now`
fixed, pop and run every due task, skipping cancelled ones and pushing
repeating tasks back at `now + repeat`.  Returns the remaining task list and
the fired callback tokens in firing order.  `fuel` bounds the iteration count
(the source loop is unbounded; every claim here is settled within the fuel). -/
def processDue (now : ℚ) : Nat → List ScheduledTask → List ScheduledTask × List Nat
  | 0, ts => (ts, [])
  | Nat.succ fuel, ts =>
    match popMin ts with
    | none => (ts, [])
    | some (t, rest) =>
      if t.run_at ≤ now then
        if t.task_id.isNone then processDue now fuel rest
        else
          let rest2 :=
            match t.repeatI with
            | some d => rest ++ [rescheduleTask now t d]
            | none => rest
          let r := processDue now fuel rest2
          (r.1, t.callbackId :: r.2)
      else (ts, [])

/-- The event loop's scheduling state (`EventLoop` in `runtime/loop.py`):
the task list (heap contents) and the id counter. -/
structure EventLoop where
  tasks : List ScheduledTask
  task_counter : Nat
  deriving DecidableEq, Repr

/-- `EventLoop.schedule_at` (lines 105-133): push a task at an absolute
simulated time, generating `task_N` when no id is supplied.  The heap push is
modelled as appending; heap-internal order only matters at pop. -/
def EventLoop.schedule_at (el : EventLoop) (run_at : ℚ) (cb : Nat) (rep : Option ℚ)
    (task_id : Option String) : EventLoop × String :=
  match task_id with
  | some tid =>
    ({ el with tasks := el.tasks ++ [⟨run_at, cb, rep, some tid⟩] }, tid)
  | none =>
    let n := el.task_counter + 1
    let tid := "task_" ++ toString n
    ({ tasks := el.tasks ++ [⟨run_at, cb, rep, some tid⟩], task_counter := n }, tid)

/-- `EventLoop.schedule_task` (lines 74-103): schedule after a delay from
`clock.now()`, which is passed in as `now`. -/
def EventLoop.schedule_task (el : EventLoop) (now delay : ℚ) (cb : Nat) (rep : Option ℚ)
    (task_id : Option String) : EventLoop × String :=
  match task_id with
  | some tid =>
    ({ el with tasks := el.tasks ++ [⟨now + delay, cb, rep, some tid⟩] }, tid)
  | none =>
    let n := el.task_counter + 1
    let tid := "task_" ++ toString n
    ({ tasks := el.tasks ++ [⟨now + delay, cb, rep, some tid⟩], task_counter := n }, tid)

/-- The marking pass of `EventLoop.cancel_task` (lines 160-174): walk the task
list, set the first task whose id matches to `task_id = None`, and report
whether one was found. -/
def cancelFirst (tid : String) : List ScheduledTask → Option (List ScheduledTask)
  | [] => none
  | t :: ts =>
    if t.task_id = some tid then some ({ t with task_id := none } :: ts)
    else (cancelFirst tid ts).map (t :: ·)

/-- `EventLoop.cancel_task`: returns the updated loop and the found flag. -/
def EventLoop.cancel_task (el : EventLoop) (tid : String) : EventLoop × Bool :=
  match cancelFirst tid el.tasks with
  | some ts => ({ el with tasks := ts }, true)
  | none => (el, false)

/-- Number of live (non-cancelled) tasks carrying a given id. -/
def liveCount (el : EventLoop) (tid : String) : Nat :=
  (el.tasks.filter fun t => t.task_id = some tid).length

/-- The target argument of `ServiceRegistry.call_service`: Python lets
`entity_id` be absent, a single string, or a list of strings. -/
inductive Target
  | missing
  | one (s : String)
  | many (xs : List String)
  deriving DecidableEq, Repr

/-- Python truthiness of the target (`if not entity_id`): absent, the empty
string, and the empty list are falsy. -/
def Target.truthy : Target → Bool
  | .missing => false
  | .one s => !(decide (s = ""))
  | .many xs => !xs.isEmpty

/-- Reading `data.get("entity_id")` as a target. -/
def targetFromData (data : Attrs) : Target :=
  match lookupA data "entity_id" with
  | some (AttrVal.str s) => Target.one s
  | some (AttrVal.strs xs) => Target.many xs
  | _ => Target.missing

/-- `ServiceRegistry.call_service` (`api/services.py` lines 107-149).  The set
of registered domains stands for `self._engines`; the owning engine's
`handle_service_call` is the function argument `handle`.  Returns the source's
boolean result paired with the list of entity ids the engine was invoked on,
in invocation order. -/
def call_service (engines : List String) (handle : String → String → Attrs → Bool)
    (domain service : String) (entity_id : Target) (data : Attrs) :
    Bool × List String :=
  if engines.contains domain then
    let target := if entity_id.truthy then entity_id else targetFromData data
    if target.truthy then
      match target with
      | Target.many xs => ((xs.map fun e => handle service e data).all id, xs)
      | Target.one s => (handle service s data, [s])
      | Target.missing => (false, [])
    else (false, [])
  else (false, [])

/-- Clamping used by `CoverBehavior._set_position`: `max(0, min(100, p))`. -/
def clampPos (p : Int) : Int := max 0 (min 100 p)

/-- Numeric attribute read with default (`attrs.get(k, d)` on a numeric
attribute). -/
def getNum (a : Attrs) (k : String) (d : Int) : Int :=
  match lookupA a k with
  | some (AttrVal.num n) => n
  | _ => d

/-- `CoverBehavior._set_position` (`behaviors/cover.py` lines 80-103), acting
on the entity's attribute dict: clamp, store the new position into the dict,
then derive the state - reading `current_position` back from the dict that was
just overwritten, exactly as the source does. -/
def CoverBehavior.set_position (attrs : Attrs) (position : Int) : String × Attrs :=
  let position := clampPos position
  let attrs := insertA attrs "current_position" (AttrVal.num position)
  let new_state :=
    if position = 0 then "closed"
    else if position = 100 then "open"
    else if getNum attrs "current_position" 0 < position then "opening" else "closing"
  (new_state, attrs)

/-- Brightness clamp of `LightBehavior._service_turn_on`:
`min(255, max(0, b))`. -/
def clampByte (n : Int) : Int := min 255 (max 0 n)

/-- Step 1 of `LightBehavior._service_turn_on`: explicit brightness from the
payload, clamped to 0..255. -/
def brightnessStep (attrs data : Attrs) : Attrs :=
  if memA data "brightness" then
    insertA attrs "brightness" (AttrVal.num (clampByte (getNum data "brightness" 0)))
  else attrs

/-- Step 2: explicit color temperature, clamped to 153..500, applied only when
the entity already has a `color_temp` attribute. -/
def colorTempStep (attrs data : Attrs) : Attrs :=
  if memA data "color_temp" && memA attrs "color_temp" then
    insertA attrs "color_temp" (AttrVal.num (min 500 (max 153 (getNum data "color_temp" 0))))
  else attrs

/-- Step 3: explicit RGB color, applied only when the entity already has an
`rgb_color` attribute. -/
def rgbStep (attrs data : Attrs) : Attrs :=
  if memA data "rgb_color" && memA attrs "rgb_color" then
    match lookupA data "rgb_color" with
    | some v => insertA attrs "rgb_color" v
    | none => attrs
  else attrs

/-- Step 4: explicit effect, accepted only when listed in the entity's
`effect_list`. -/
def effectStep (attrs data : Attrs) : Attrs :=
  match lookupA data "effect", lookupA attrs "effect_list" with
  | some (AttrVal.str e), some (AttrVal.strs es) =>
    if es.contains e then insertA attrs "effect" (AttrVal.str e) else attrs
  | _, _ => attrs

/-- Step 5 (`light.py` lines 134-136): brightness defaults to max when the
entity supports it and the payload supplied none. -/
def defaultBrightnessStep (attrs data : Attrs) : Attrs :=
  if memA attrs "brightness" && !(memA data "brightness") then
    insertA attrs "brightness" (AttrVal.num 255)
  else attrs

/-- The attribute transformation of `LightBehavior._service_turn_on`
(`behaviors/light.py` lines 109-138): the five update blocks applied in source
order. -/
def LightBehavior.turn_on_attrs (attrs data : Attrs) : Attrs :=
  defaultBrightnessStep
    (effectStep (rgbStep (colorTempStep (brightnessStep attrs data) data) data) data) data

/-- One external `set_state` call in a write sequence (context omitted: it does
not influence the change test, history, or notification). -/
structure Write where
  wallNow : ℚ
  entity_id : String
  state : String
  attributes : Attrs
  force_update : Bool
  deriving DecidableEq, Repr

/-- Run a sequence of writes through `set_state`, collecting per-write
`(entity_id, changed, appended prior)` log entries in order. -/
def runWrites : StateManager → List Write → StateManager × List (String × Bool × Option EntityState)
  | sm, [] => (sm, [])
  | sm, w :: ws =>
    let r := sm.set_state w.wallNow w.entity_id w.state w.attributes none w.force_update
    let rest := runWrites r.manager ws
    (rest.1, (w.entity_id, r.changed, r.appended) :: rest.2)

/-- The prior records appended to an entity's history along a run, oldest
first. -/
def appendsFor (log : List (String × Bool × Option EntityState)) (e : String) :
    List EntityState :=
  log.filterMap fun x => if x.1 = e then x.2.2 else none

/-- Number of writes to an entity the store deemed changing. -/
def changedCount (log : List (String × Bool × Option EntityState)) (e : String) : Nat :=
  (log.filter fun x => decide (x.1 = e) && x.2.1).length

/-- The stored history list of an entity. -/
def histOf (sm : StateManager) (e : String) : List EntityState :=
  (lookupA sm.history e).getD []

theorem length_takeLast {α : Type} (n : Nat) (xs : List α) :
    (takeLast n xs).length = min n xs.length := by
  simp [takeLast]
  omega

theorem takeLast_eq_self {α : Type} {n : Nat} {xs : List α} (h : xs.length ≤ n) :
    takeLast n xs = xs := by
  have : xs.length - n = 0 := by omega
  simp [takeLast, this]

theorem takeLast_append_right {α : Type} {n : Nat} (a : List α) {b : List α}
    (h : n ≤ b.length) : takeLast n (a ++ b) = takeLast n b := by
  unfold takeLast
  have h1 : a.length + b.length - n = a.length + (b.length - n) := by omega
  rw [List.length_append, h1, List.drop_append]

theorem takeLast_takeLast_append {α : Type} (n : Nat) (xs ys : List α) :
    takeLast n (takeLast n xs ++ ys) = takeLast n (xs ++ ys) := by
  by_cases h : n ≤ xs.length
  · conv_rhs => rw [← List.take_append_drop (xs.length - n) xs]
    rw [List.append_assoc]
    rw [takeLast_append_right (List.take (xs.length - n) xs)]
    · rfl
    · rw [List.length_append]
      have : (List.drop (xs.length - n) xs).length = n := by
        simp
        omega
      omega
  · rw [takeLast_eq_self (by omega : xs.length ≤ n)]

theorem pyTrim_eq_takeLast {α : Type} {n : Nat} (hn : 0 < n) (xs : List α) :
    pyTrim n xs = takeLast n xs := by
  unfold pyTrim
  by_cases h : n < xs.length
  · simp [h, Nat.pos_iff_ne_zero.mp hn]
  · simp [h, takeLast_eq_self (by omega : xs.length ≤ n)]

theorem set_state_max_history (sm : StateManager) (wallNow : ℚ) (eid st : String)
    (attrs : Attrs) (ctx : Option Attrs) (fu : Bool) :
    (sm.set_state wallNow eid st attrs ctx fu).manager.max_history = sm.max_history := by
  simp [StateManager.set_state]

theorem set_state_lookup_states_self (sm : StateManager) (wallNow : ℚ) (eid st : String)
    (attrs : Attrs) (ctx : Option Attrs) (fu : Bool) :
    lookupA (sm.set_state wallNow eid st attrs ctx fu).manager.states eid =
      some (sm.set_state wallNow eid st attrs ctx fu).record := by
  simp [StateManager.set_state, lookupA_insertA_self]

theorem set_state_lookup_states_ne (sm : StateManager) (wallNow : ℚ) (eid st : String)
    (attrs : Attrs) (ctx : Option Attrs) (fu : Bool) {e : String} (h : eid ≠ e) :
    lookupA (sm.set_state wallNow eid st attrs ctx fu).manager.states e =
      lookupA sm.states e := by
  simp [StateManager.set_state, lookupA_insertA_ne _ _ _ _ h]

theorem set_state_histOf_ne (sm : StateManager) (wallNow : ℚ) (eid st : String)
    (attrs : Attrs) (ctx : Option Attrs) (fu : Bool) {e : String} (h : eid ≠ e) :
    histOf (sm.set_state wallNow eid st attrs ctx fu).manager e = histOf sm e := by
  unfold histOf StateManager.set_state
  cases hOld : lookupA sm.states eid <;>
    simp [hOld, lookupA_insertA_ne _ _ _ _ h]
  split <;> simp [lookupA_insertA_ne _ _ _ _ h]

theorem set_state_histOf_self (sm : StateManager) (wallNow : ℚ) (eid st : String)
    (attrs : Attrs) (ctx : Option Attrs) (fu : Bool) :
    histOf (sm.set_state wallNow eid st attrs ctx fu).manager eid =
      match (sm.set_state wallNow eid st attrs ctx fu).appended with
      | some o => pyTrim sm.max_history (histOf sm eid ++ [o])
      | none => histOf sm eid := by
  unfold histOf StateManager.set_state
  cases hOld : lookupA sm.states eid <;> simp [hOld]
  split <;> simp [lookupA_insertA_self]

theorem set_state_appended_none (sm : StateManager) (wallNow : ℚ) (eid st : String)
    (attrs : Attrs) (ctx : Option Attrs) (fu : Bool) (h : lookupA sm.states eid = none) :
    (sm.set_state wallNow eid st attrs ctx fu).appended = none := by
  simp [StateManager.set_state, h]

theorem set_state_changed_of_new (sm : StateManager) (wallNow : ℚ) (eid st : String)
    (attrs : Attrs) (ctx : Option Attrs) (fu : Bool) (h : lookupA sm.states eid = none) :
    (sm.set_state wallNow eid st attrs ctx fu).changed = true := by
  simp [StateManager.set_state, h]

theorem set_state_appended_iff_changed (sm : StateManager) (wallNow : ℚ) (eid st : String)
    (attrs : Attrs) (ctx : Option Attrs) (fu : Bool) {o : EntityState}
    (h : lookupA sm.states eid = some o) :
    (sm.set_state wallNow eid st attrs ctx fu).appended =
      (if (sm.set_state wallNow eid st attrs ctx fu).changed then some o else none) := by
  simp [StateManager.set_state, h]

theorem runWrites_max_history (ws : List Write) :
    ∀ sm : StateManager, (runWrites sm ws).1.max_history = sm.max_history := by
  induction ws with
  | nil => intro sm; rfl
  | cons w ws ih => intro sm; simp [runWrites, ih, set_state_max_history]

theorem appendsFor_cons (e' : String) (ch : Bool) (ap : Option EntityState)
    (log : List (String × Bool × Option EntityState)) (e : String) :
    appendsFor ((e', ch, ap) :: log) e =
      (if e' = e then ap.toList else []) ++ appendsFor log e := by
  unfold appendsFor
  by_cases h : e' = e <;> cases ap <;> simp [h, List.filterMap_cons]

theorem changedCount_cons (e' : String) (ch : Bool) (ap : Option EntityState)
    (log : List (String × Bool × Option EntityState)) (e : String) :
    changedCount ((e', ch, ap) :: log) e =
      (if e' = e ∧ ch = true then 1 else 0) + changedCount log e := by
  unfold changedCount
  by_cases h : e' = e <;> cases ch <;> simp [h, List.filter_cons, Nat.add_comm]

theorem runWrites_hist (N : Nat) (hN : 0 < N) (e : String) (ws : List Write) :
    ∀ sm : StateManager, sm.max_history = N → (histOf sm e).length ≤ N →
      histOf (runWrites sm ws).1 e =
        takeLast N (histOf sm e ++ appendsFor (runWrites sm ws).2 e) := by
  induction ws with
  | nil =>
    intro sm _ hlen
    simp [runWrites, appendsFor]
    exact (takeLast_eq_self hlen).symm
  | cons w ws ih =>
    intro sm hm hlen
    have hm' := set_state_max_history sm w.wallNow w.entity_id w.state w.attributes none
      w.force_update
    by_cases he : w.entity_id = e
    · subst he
      have hh := set_state_histOf_self sm w.wallNow w.entity_id w.state w.attributes none
        w.force_update
      cases hap :
          (sm.set_state w.wallNow w.entity_id w.state w.attributes none
            w.force_update).appended with
      | none =>
        rw [hap] at hh
        simp only [runWrites, appendsFor_cons, hap]
        rw [ih _ (by rw [hm', hm]) (by rw [hh]; exact hlen)]
        simp [hh]
      | some o =>
        rw [hap] at hh
        simp only at hh
        rw [hm] at hh
        rw [pyTrim_eq_takeLast hN] at hh
        simp only [runWrites, appendsFor_cons, hap]
        rw [ih _ (by rw [hm', hm]) (by rw [hh, length_takeLast]; omega)]
        rw [hh, takeLast_takeLast_append]
        simp
    · have hh := set_state_histOf_ne sm w.wallNow w.entity_id w.state w.attributes none
        w.force_update he
      simp only [runWrites, appendsFor_cons, if_neg he]
      rw [ih _ (by rw [hm', hm]) (by rw [hh]; exact hlen)]
      simp [hh]

theorem runWrites_changed (e : String) (ws : List Write) :
    ∀ sm : StateManager,
      changedCount (runWrites sm ws).2 e +
          (if (lookupA sm.states e).isSome then 1 else 0) =
        (appendsFor (runWrites sm ws).2 e).length +
          (if (lookupA (runWrites sm ws).1.states e).isSome then 1 else 0) := by
  induction ws with
  | nil => intro sm; simp [runWrites, appendsFor, changedCount]
  | cons w ws ih =>
    intro sm
    by_cases he : w.entity_id = e
    · subst he
      have hself := set_state_lookup_states_self sm w.wallNow w.entity_id w.state
        w.attributes none w.force_update
      have h2 := ih (sm.set_state w.wallNow w.entity_id w.state w.attributes none
        w.force_update).manager
      rw [hself] at h2
      simp only [Option.isSome_some, if_true] at h2
      cases hOld : lookupA sm.states w.entity_id with
      | none =>
        have hap := set_state_appended_none sm w.wallNow w.entity_id w.state w.attributes
          none w.force_update hOld
        have hch := set_state_changed_of_new sm w.wallNow w.entity_id w.state w.attributes
          none w.force_update hOld
        simp only [runWrites]
        rw [changedCount_cons, appendsFor_cons, hap, hch]
        simp
        omega
      | some o =>
        have hap := set_state_appended_iff_changed sm w.wallNow w.entity_id w.state
          w.attributes none w.force_update hOld
        cases hch :
            (sm.set_state w.wallNow w.entity_id w.state w.attributes none
              w.force_update).changed with
        | true =>
          rw [hch, if_pos rfl] at hap
          simp only [runWrites]
          rw [changedCount_cons, appendsFor_cons, hap, hch]
          simp
          omega
        | false =>
          rw [hch] at hap
          simp only [Bool.false_eq_true, if_false] at hap
          simp only [runWrites]
          rw [changedCount_cons, appendsFor_cons, hap, hch]
          simp
          omega
    · have hne := set_state_lookup_states_ne sm w.wallNow w.entity_id w.state w.attributes
        none w.force_update he
      have h2 := ih (sm.set_state w.wallNow w.entity_id w.state w.attributes none
        w.force_update).manager
      rw [hne] at h2
      simp only [runWrites]
      rw [changedCount_cons, appendsFor_cons]
      simp only [he, false_and, if_false, List.nil_append, Nat.zero_add]
      exact h2

/-- A paused clock state: exactly the state reached by initializing the clock
at simulated time 100 with speed 2 and calling `pause()` at wall time 0
(see `C5_counterexample`, which proves the reachability equation). -/
def pausedClockW : SimulationClock :=
  { start_time := 100
    sim_time := 100
    wall_start := 0
    speed := 2
    paused := true
    pause_time := some 0
    pause_sim_time := some 100 }

/-- Claim C9: `pause()` is idempotent - a second `pause()` leaves the whole
clock state unchanged, so `pause(); pause(); now()` equals `pause(); now()` -
and after a `pause()` at wall time `w1`, `now()` returns the captured pause
value (the simulated time at the pause) verbatim at every later wall reading,
until `resume()`. -/
theorem C9_pause_idempotent (c : SimulationClock) (w1 w2 w' : ℚ) :
    (c.pause w1).pause w2 = c.pause w1 ∧ (c.pause w1).now w' = c.now w1 := by
  constructor
  · unfold SimulationClock.pause
    by_cases h : c.paused <;> simp [h]
  · unfold SimulationClock.pause SimulationClock.now
    by_cases h : c.paused <;> simp [h]

/-- Claim C5 counterexample: with the clock paused at simulated time 100 and
speed 2, `wall_time_until(110)` returns `(110 - 100) / 2 = 5`, not nothing -
refuting "During pause, returns nothing."  The first conjunct shows the
paused state is reached by `init` followed by `pause`. -/
theorem C5_counterexample :
    (SimulationClock.init 100 2 false 0).pause 0 = pausedClockW ∧
    pausedClockW.paused = true ∧
    pausedClockW.wall_time_until 7 110 = some 5 ∧
    (some (5 : ℚ) ≠ none) := by
  refine ⟨?_, rfl, ?_, by decide⟩
  · norm_num [SimulationClock.init, SimulationClock.pause, SimulationClock.now,
      pausedClockW]
  · norm_num [SimulationClock.wall_time_until, SimulationClock.time_until,
      SimulationClock.now, pausedClockW]

/-- Claim C5 amended: `wall_time_until(target)` returns
`(target - now()) / speed` whenever `target` is strictly ahead of `now()` and
nothing otherwise - where while paused `now()` is the frozen pause value, so a
target ahead of the frozen value still yields a wall delay. -/
theorem C5_wall_time_until (c : SimulationClock) (wallNow target : ℚ) :
    (c.now wallNow < target →
      c.wall_time_until wallNow target = some ((target - c.now wallNow) / c.speed)) ∧
    (target ≤ c.now wallNow → c.wall_time_until wallNow target = none) := by
  unfold SimulationClock.wall_time_until SimulationClock.time_until
  constructor <;> intro h
  · rw [if_neg (not_le.mpr h)]
  · rw [if_pos h]

/-- Claim C5 witness: the amended statement applied to the paused clock and
target 110. -/
theorem C5_witness :
    pausedClockW.now 7 < 110 ∧
    pausedClockW.wall_time_until 7 110 =
      some ((110 - pausedClockW.now 7) / pausedClockW.speed) :=
  ⟨by decide, (C5_wall_time_until pausedClockW 7 110).1 (by decide)⟩

/-- Claim C1 (code bug): `StateManager.set_state` stamps the produced record
with the ambient wall clock (`datetime.now(timezone.utc)`), not the simulation
clock's `now()` - the manager is not even constructed with a clock.  With the
simulation clock paused at simulated time 100 while the wall clock reads 200,
the produced record's `last_updated` is 200 whereas `clock.now()` is 100. -/
theorem C1_set_state_stamps_wall_clock :
    ((emptyManager 1000).set_state 200 "light.a" "on" [] none false).record.last_updated
      = 200 ∧
    pausedClockW.now 200 = 100 ∧
    ((emptyManager 1000).set_state 200 "light.a" "on" [] none false).record.last_updated
      ≠ pausedClockW.now 200 := by
  refine ⟨rfl, rfl, by decide⟩

/-- The prior record for the unchanged-write scenario of claim C3. -/
def priorA : EntityState :=
  { entity_id := "light.a"
    state := "on"
    attributes := []
    last_changed := 5
    last_updated := 5
    context := none }

/-- A manager holding exactly `priorA`. -/
def smA : StateManager :=
  { states := [("light.a", priorA)], history := [], max_history := 1000 }

/-- Claim C3 counterexample: writing the identical state and attributes with
`force_update = false` notifies nobody, but the stored value is NOT left
unchanged - the stored record is replaced by one whose `last_updated` is
refreshed to the write time (20, not the prior 5). -/
theorem C3_counterexample :
    (smA.set_state 20 "light.a" "on" [] none false).notified = false ∧
    lookupA (smA.set_state 20 "light.a" "on" [] none false).manager.states "light.a"
      ≠ some priorA ∧
    (smA.set_state 20 "light.a" "on" [] none false).record.last_updated = 20 := by
  refine ⟨by decide, by decide, rfl⟩

/-- Claim C3 amended: an unchanged write with `force_update = false` notifies
no subscriber and leaves the history untouched; the stored record keeps the
prior `state`, `attributes` (as a dict) and `last_changed`, but is a fresh
record whose `last_updated` is the current write time. -/
theorem C3_unchanged_write (sm : StateManager) (wallNow : ℚ) (eid st : String)
    (attrs : Attrs) (ctx : Option Attrs) (prior : EntityState)
    (hprior : lookupA sm.states eid = some prior)
    (hstate : prior.state = st)
    (hattrs : attrsEqv prior.attributes attrs = true) :
    (sm.set_state wallNow eid st attrs ctx false).notified = false ∧
    (sm.set_state wallNow eid st attrs ctx false).record.state = st ∧
    (sm.set_state wallNow eid st attrs ctx false).record.attributes = attrs ∧
    (sm.set_state wallNow eid st attrs ctx false).record.last_changed
      = prior.last_changed ∧
    (sm.set_state wallNow eid st attrs ctx false).record.last_updated = wallNow ∧
    (sm.set_state wallNow eid st attrs ctx false).manager.history = sm.history ∧
    lookupA (sm.set_state wallNow eid st attrs ctx false).manager.states eid =
      some (sm.set_state wallNow eid st attrs ctx false).record := by
  unfold StateManager.set_state
  simp [hprior, hstate, hattrs, lookupA_insertA_self]

/-- Claim C3 witness: the amended statement at the concrete unchanged write of
the counterexample. -/
theorem C3_witness :
    lookupA smA.states "light.a" = some priorA ∧
    priorA.state = "on" ∧
    attrsEqv priorA.attributes [] = true ∧
    (smA.set_state 20 "light.a" "on" [] none false).notified = false := by
  refine ⟨by decide, rfl, by decide, ?_⟩
  exact (C3_unchanged_write smA 20 "light.a" "on" [] none priorA (by decide) rfl
    (by decide)).1

/-- Claim C6 (code bug): `_set_position` overwrites `current_position` in the
attribute dict before the direction comparison, so the comparison reads the new
position against itself and every intermediate target yields `closing` (the
`opening` branch is dead code).  Moving up from position 0 to 50 reports
`closing`, though the claim (and the evident intent of the comparison) says
`opening`.  The clamp and the 0/100 endpoints behave as claimed. -/
theorem C6_cover_direction_bug :
    (CoverBehavior.set_position [("current_position", AttrVal.num 0)] 50).1
      = "closing" ∧
    (CoverBehavior.set_position [("current_position", AttrVal.num 0)] 50).1
      ≠ "opening" ∧
    lookupA (CoverBehavior.set_position [("current_position", AttrVal.num 0)] 50).2
      "current_position" = some (AttrVal.num 50) ∧
    (CoverBehavior.set_position [("current_position", AttrVal.num 0)] 150).1
      = "open" ∧
    lookupA (CoverBehavior.set_position [("current_position", AttrVal.num 0)] 150).2
      "current_position" = some (AttrVal.num 100) ∧
    (CoverBehavior.set_position [("current_position", AttrVal.num 20)] (-3)).1
      = "closed" ∧
    lookupA (CoverBehavior.set_position [("current_position", AttrVal.num 20)] (-3)).2
      "current_position" = some (AttrVal.num 0) := by
  decide

theorem memA_insertA_ne {α : Type} (d : List (String × α)) (k k' : String) (v : α)
    (h : k ≠ k') : memA (insertA d k v) k' = memA d k' := by
  simp [memA, lookupA_insertA_ne _ _ _ _ h]

theorem lookup_brightness_colorTempStep (attrs data : Attrs) :
    lookupA (colorTempStep attrs data) "brightness" = lookupA attrs "brightness" := by
  unfold colorTempStep
  split
  · exact lookupA_insertA_ne _ _ _ _ (by decide)
  · rfl

theorem lookup_brightness_rgbStep (attrs data : Attrs) :
    lookupA (rgbStep attrs data) "brightness" = lookupA attrs "brightness" := by
  unfold rgbStep
  split
  · cases lookupA data "rgb_color" with
    | none => rfl
    | some v => exact lookupA_insertA_ne _ _ _ _ (by decide)
  · rfl

theorem lookup_brightness_effectStep (attrs data : Attrs) :
    lookupA (effectStep attrs data) "brightness" = lookupA attrs "brightness" := by
  unfold effectStep
  cases he : lookupA data "effect" with
  | none => rfl
  | some v =>
    cases v with
    | str e =>
      cases hel : lookupA attrs "effect_list" with
      | none => rfl
      | some v' =>
        cases v' with
        | strs es =>
          simp only [effectStep]
          split
          · exact lookupA_insertA_ne attrs "effect" "brightness" (AttrVal.str e)
              (by decide)
          · rfl
        | str s => rfl
        | num n => rfl
        | nums xs => rfl
        | boolean b => rfl
    | num n => rfl
    | nums xs => rfl
    | strs xs => rfl
    | boolean b => rfl

/-- Claim C10: for a light whose attributes contain `brightness`, `turn_on`
with a payload lacking `brightness` stores 255, overwriting any prior dimmer
value; an explicitly supplied brightness is clamped to 0..255 and stored. -/
theorem C10_turn_on_brightness (attrs data : Attrs) (b : Int) :
    (memA attrs "brightness" = true → lookupA data "brightness" = none →
      lookupA (LightBehavior.turn_on_attrs attrs data) "brightness"
        = some (AttrVal.num 255)) ∧
    (lookupA data "brightness" = some (AttrVal.num b) →
      lookupA (LightBehavior.turn_on_attrs attrs data) "brightness"
        = some (AttrVal.num (min 255 (max 0 b)))) := by
  constructor
  · intro h1 h2
    have hd : memA data "brightness" = false := by simp [memA, h2]
    have hb1 : brightnessStep attrs data = attrs := by
      unfold brightnessStep
      rw [hd]
      simp
    have hpres :
        lookupA
          (effectStep (rgbStep (colorTempStep (brightnessStep attrs data) data) data) data)
          "brightness" = lookupA attrs "brightness" := by
      rw [lookup_brightness_effectStep, lookup_brightness_rgbStep,
        lookup_brightness_colorTempStep, hb1]
    unfold LightBehavior.turn_on_attrs defaultBrightnessStep
    rw [hd]
    simp only [Bool.not_false, Bool.and_true, memA, hpres]
    rw [show (lookupA attrs "brightness").isSome = true from by
      simpa [memA] using h1]
    simp only [if_true]
    exact lookupA_insertA_self _ _ _
  · intro h
    have hd : memA data "brightness" = true := by simp [memA, h]
    have hb1 : lookupA (brightnessStep attrs data) "brightness"
        = some (AttrVal.num (clampByte (getNum data "brightness" 0))) := by
      unfold brightnessStep
      rw [hd]
      simp only [if_true]
      exact lookupA_insertA_self _ _ _
    have hpres :
        lookupA
          (effectStep (rgbStep (colorTempStep (brightnessStep attrs data) data) data) data)
          "brightness" = some (AttrVal.num (clampByte (getNum data "brightness" 0))) := by
      rw [lookup_brightness_effectStep, lookup_brightness_rgbStep,
        lookup_brightness_colorTempStep, hb1]
    unfold LightBehavior.turn_on_attrs defaultBrightnessStep
    rw [hd]
    simp only [Bool.not_true, Bool.and_false, Bool.false_eq_true, if_false]
    rw [hpres]
    have : getNum data "brightness" 0 = b := by simp [getNum, h]
    rw [this]
    rfl

/-- The light-attribute dict and dimmed-light payload for the C10 witness. -/
def attrsW : Attrs := [("friendly_name", AttrVal.str "Light"), ("brightness", AttrVal.num 77)]

/-- Claim C10 witness: the dimmed light (brightness 77) gets 255 from a
payload with no brightness key, and a payload carrying brightness 300 stores
the clamp of 300. -/
theorem C10_witness :
    memA attrsW "brightness" = true ∧
    lookupA ([] : Attrs) "brightness" = none ∧
    lookupA (LightBehavior.turn_on_attrs attrsW []) "brightness"
      = some (AttrVal.num 255) ∧
    lookupA (LightBehavior.turn_on_attrs attrsW [("brightness", AttrVal.num 300)])
      "brightness" = some (AttrVal.num (min 255 (max 0 300))) := by
  refine ⟨by decide, rfl, ?_, ?_⟩
  · exact (C10_turn_on_brightness attrsW [] 0).1 (by decide) rfl
  · exact (C10_turn_on_brightness attrsW [("brightness", AttrVal.num 300)] 300).2
      (by decide)

/-- A live repeating task scheduled to fire at simulated time 10 with interval
5, used for claims C2 and C8. -/
def lateTask : ScheduledTask :=
  { run_at := 10, callbackId := 7, repeatI := some 5, task_id := some "a" }

/-- Claim C2 counterexample: the dispatch iteration samples `now = 12` (a late
wake), fires the task scheduled at 10 once, and reschedules it at
`now + Δ = 17`, not at the previously scheduled firing time plus Δ (15).  So a
repeating task's firing sequence is not `t0, t0+Δ, t0+2Δ, …` under simulated
late wakes: drift against simulated time accumulates. -/
theorem C2_counterexample :
    (processDue 12 2 [lateTask]).2 = [7] ∧
    (processDue 12 2 [lateTask]).1.map (fun t => t.run_at) = [17] ∧
    ¬ ((processDue 12 2 [lateTask]).1.map (fun t => t.run_at) = [10 + 5]) := by
  have h1 : processDue 12 2 [lateTask]
      = ([{ lateTask with run_at := 12 + 5 }], [7]) := by
    simp only [processDue, popMin, rescheduleTask, lateTask]
    norm_num
  rw [h1]
  norm_num

/-- Claim C2 amended: when the dispatch iteration (with sampled simulated time
`now`) fires a live repeating task that is due, the task is pushed back with
`run_at = now + Δ` - the simulated time observed at the start of the iteration
plus the interval - so when the loop observed the task late (`now` past the
scheduled `run_at`), the next firing time shifts by the lateness instead of
staying on the `t0 + k·Δ` grid. -/
theorem C2_reschedule_uses_loop_now (now : ℚ) (t : ScheduledTask) (d : ℚ) (fuel : Nat)
    (hlive : t.task_id ≠ none) (hrep : t.repeatI = some d) (hdue : t.run_at ≤ now)
    (hpos : 0 < d) :
    processDue now (fuel + 2) [t] = ([rescheduleTask now t d], [t.callbackId]) ∧
    (rescheduleTask now t d).run_at = now + d ∧
    (t.run_at < now → t.run_at + d < (rescheduleTask now t d).run_at) := by
  have hlive' : t.task_id.isNone = false := by
    cases h : t.task_id with
    | none => exact absurd h hlive
    | some s => rfl
  have hnotdue : ¬ (now + d ≤ now) := by linarith
  refine ⟨?_, rfl, ?_⟩
  · show processDue now (Nat.succ (Nat.succ fuel)) [t] = _
    simp only [processDue, popMin, hdue, if_true, hlive', Bool.false_eq_true, if_false,
      hrep, List.nil_append, rescheduleTask, hnotdue]
  · intro hlt
    simp only [rescheduleTask]
    linarith

/-- Claim C2 witness: the amended statement at the concrete late dispatch of
the counterexample (`now = 12`, task scheduled at 10 with interval 5). -/
theorem C2_witness :
    lateTask.task_id ≠ none ∧ lateTask.repeatI = some 5 ∧ lateTask.run_at ≤ 12 ∧
    ((0 : ℚ) < 5) ∧
    processDue 12 (0 + 2) [lateTask] = ([rescheduleTask 12 lateTask 5], [lateTask.callbackId]) :=
  ⟨by decide, rfl, by decide, by decide,
    (C2_reschedule_uses_loop_now 12 lateTask 5 0 (by decide) rfl (by decide) (by decide)).1⟩

/-- The empty event loop used by the C8 scenarios. -/
def elW : EventLoop := { tasks := [], task_counter := 0 }

/-- Claim C8 counterexample: `schedule_task`/`schedule_at` never check for an
existing live task with the supplied id, so scheduling twice with explicit id
"x" leaves two live tasks carrying "x" - refuting "at most one live task per
id"; and `cancel_task("x")` then marks only one of them, leaving a live "x"
task behind, so cancel does not cancel "any task with that id". -/
theorem C8_counterexample :
    liveCount
      (((elW.schedule_at 5 1 none (some "x")).1.schedule_at 6 2 none (some "x")).1) "x"
      = 2 ∧
    ¬ (liveCount
      (((elW.schedule_at 5 1 none (some "x")).1.schedule_at 6 2 none (some "x")).1) "x"
      ≤ 1) ∧
    liveCount
      ((((elW.schedule_at 5 1 none (some "x")).1.schedule_at 6 2 none
        (some "x")).1.cancel_task "x").1) "x" = 1 := by
  decide

theorem cancelFirst_none_iff (tid : String) (ts : List ScheduledTask) :
    cancelFirst tid ts = none ↔ (ts.any fun t => t.task_id = some tid) = false := by
  induction ts with
  | nil => simp [cancelFirst]
  | cons t ts ih =>
    by_cases h : t.task_id = some tid <;> simp [cancelFirst, h, ih]

theorem cancelFirst_some_live (tid : String) (ts ts' : List ScheduledTask)
    (h : cancelFirst tid ts = some ts') :
    (ts'.filter fun t => t.task_id = some tid).length + 1 =
      (ts.filter fun t => t.task_id = some tid).length := by
  induction ts generalizing ts' with
  | nil => simp [cancelFirst] at h
  | cons t ts ih =>
    by_cases ht : t.task_id = some tid
    · rw [cancelFirst, if_pos ht] at h
      cases h
      simp [List.filter_cons, ht]
    · rw [cancelFirst, if_neg ht] at h
      cases hrec : cancelFirst tid ts with
      | none => rw [hrec] at h; simp at h
      | some ts'' =>
        rw [hrec] at h
        simp at h
        subst h
        simpa [List.filter_cons, ht] using ih ts'' hrec

/-- Claim C8 amended: the scheduler does not enforce id uniqueness (see the
counterexample: two live tasks may carry the same explicit id); what holds is
that `cancel_task(id)` returns true exactly when some live task carries the
id, marks exactly one such task cancelled when it returns true, and leaves the
loop untouched when it returns false. -/
theorem C8_cancel_semantics (el : EventLoop) (tid : String) :
    ((el.cancel_task tid).2 = true ↔
      (el.tasks.any fun t => t.task_id = some tid) = true) ∧
    ((el.cancel_task tid).2 = true →
      liveCount (el.cancel_task tid).1 tid + 1 = liveCount el tid) ∧
    ((el.cancel_task tid).2 = false → (el.cancel_task tid).1 = el) := by
  unfold EventLoop.cancel_task
  cases h : cancelFirst tid el.tasks with
  | none =>
    have hany := (cancelFirst_none_iff tid el.tasks).mp h
    refine ⟨?_, ?_, ?_⟩
    · simp [hany]
    · intro hc; simp at hc
    · intro _; rfl
  | some ts' =>
    refine ⟨?_, ?_, ?_⟩
    · constructor
      · intro _
        by_contra hany
        have := (cancelFirst_none_iff tid el.tasks).mpr (by simpa using hany)
        rw [this] at h
        exact Option.noConfusion h
      · intro _; rfl
    · intro _
      exact cancelFirst_some_live tid el.tasks ts' h
    · intro hc; simp at hc
  
/-- Claim C8 witness: the amended cancel semantics applied after one schedule
of id "x": cancelling removes exactly the one live "x" task. -/
theorem C8_witness :
    liveCount (((elW.schedule_at 5 1 none (some "x")).1.cancel_task "x").1) "x" + 1 =
      liveCount (elW.schedule_at 5 1 none (some "x")).1 "x" :=
  (C8_cancel_semantics (elW.schedule_at 5 1 none (some "x")).1 "x").2.1 (by decide)

/-- An engine handler that accepts every call, for the C4 scenarios. -/
def handleAlways : String → String → Attrs → Bool := fun _ _ _ => true

/-- Claim C4 counterexample: with the `light` engine registered and an empty
target (no entity id argument and none in the data), `call_service` invokes
the engine zero times - not once with no id - and returns a single boolean
`False`, not a per-id result list. -/
theorem C4_counterexample :
    (call_service ["light"] handleAlways "light" "turn_on" Target.missing []).2 = [] ∧
    (call_service ["light"] handleAlways "light" "turn_on" Target.missing []).1
      = false ∧
    ¬ ((call_service ["light"] handleAlways "light" "turn_on" Target.missing []).2.length
      = 1) := by
  decide

/-- Claim C4 amended: `call_service` returns a single boolean.  For a
registered domain it invokes `engine.handle_service_call` once per id in the
target list, in list order, and returns the conjunction of the per-id results;
a single non-empty string target is invoked once; an empty target (after
falling back to `data["entity_id"]`) returns `False` without invoking the
engine; an unknown domain returns `False` without invoking the engine. -/
theorem C4_call_service_semantics (engines : List String)
    (handle : String → String → Attrs → Bool) (domain service : String)
    (t : Target) (xs : List String) (s : String) (data : Attrs) :
    (engines.contains domain = false →
      call_service engines handle domain service t data = (false, [])) ∧
    (engines.contains domain = true → xs ≠ [] →
      call_service engines handle domain service (Target.many xs) data =
        ((xs.map fun e => handle service e data).all id, xs)) ∧
    (engines.contains domain = true → s ≠ "" →
      call_service engines handle domain service (Target.one s) data =
        (handle service s data, [s])) ∧
    (engines.contains domain = true → lookupA data "entity_id" = none →
      call_service engines handle domain service Target.missing data = (false, [])) := by
  refine ⟨?_, ?_, ?_, ?_⟩
  · intro h
    simp only [call_service, h, Bool.false_eq_true, if_false]
  · intro h hxs
    have ht : (Target.many xs).truthy = true := by
      simp [Target.truthy, hxs]
    simp only [call_service, h, ht, if_true]
  · intro h hs
    have ht : (Target.one s).truthy = true := by
      simp [Target.truthy, hs]
    simp only [call_service, h, ht, if_true]
  · intro h hdata
    have ht : targetFromData data = Target.missing := by
      simp [targetFromData, hdata]
    simp only [call_service, h, if_true, Target.truthy, Bool.false_eq_true, if_false, ht]

/-- Claim C4 witness: the amended list-target clause at two lights - the
engine is invoked once per id, in list order. -/
theorem C4_witness :
    (["light"].contains "light") = true ∧
    (["light.a", "light.b"] ≠ ([] : List String)) ∧
    call_service ["light"] handleAlways "light" "turn_on"
        (Target.many ["light.a", "light.b"]) [] =
      ((["light.a", "light.b"].map fun e => handleAlways "turn_on" e []).all id,
        ["light.a", "light.b"]) :=
  ⟨by decide, by decide,
    (C4_call_service_semantics ["light"] handleAlways "light" "turn_on"
      (Target.many ["light.a", "light.b"]) ["light.a", "light.b"] "" []).2.1
      (by decide) (by decide)⟩

/-- Claim C7: from a fresh manager with history bound `N ≥ 1`, after any
sequence of writes every entity's stored history is exactly the last `N` of
the prior records appended along the run (so the dropped entries are exactly
the oldest ones), its length never exceeds `N`, and once an entity has
received more than `N` writes the store deemed changing, its history length is
exactly `N`. -/
theorem C7_history_bound (N : Nat) (ws : List Write) (e : String) (hN : 0 < N) :
    histOf (runWrites (emptyManager N) ws).1 e =
      takeLast N (appendsFor (runWrites (emptyManager N) ws).2 e) ∧
    (histOf (runWrites (emptyManager N) ws).1 e).length ≤ N ∧
    (N < changedCount (runWrites (emptyManager N) ws).2 e →
      (histOf (runWrites (emptyManager N) ws).1 e).length = N) := by
  have he : histOf (emptyManager N) e = [] := rfl
  have h1 := runWrites_hist N hN e ws (emptyManager N) rfl (by rw [he]; simp)
  rw [he, List.nil_append] at h1
  refine ⟨h1, ?_, ?_⟩
  · rw [h1, length_takeLast]
    exact Nat.min_le_left _ _
  · intro hc
    have h2 := runWrites_changed e ws (emptyManager N)
    have h0 : lookupA (emptyManager N).states e = none := rfl
    rw [h0] at h2
    simp only [Option.isSome_none, Bool.false_eq_true, if_false, Nat.add_zero] at h2
    have hge : N ≤ (appendsFor (runWrites (emptyManager N) ws).2 e).length := by
      rcases Bool.eq_false_or_eq_true
          ((lookupA (runWrites (emptyManager N) ws).1.states e).isSome) with hs | hs <;>
        rw [hs] at h2 <;> simp at h2 <;> omega
    rw [h1, length_takeLast]
    omega

/-- The write sequence for the C7 witness: three changing writes to one
entity. -/
def wsW : List Write :=
  [ { wallNow := 1, entity_id := "light.a", state := "on", attributes := [],
      force_update := false }
  , { wallNow := 2, entity_id := "light.a", state := "off", attributes := [],
      force_update := false }
  , { wallNow := 3, entity_id := "light.a", state := "on", attributes := [],
      force_update := false } ]

/-- Claim C7 witness: the bound at `N = 1` on three changing writes. -/
theorem C7_witness :
    0 < 1 ∧
    (histOf (runWrites (emptyManager 1) wsW).1 "light.a" =
      takeLast 1 (appendsFor (runWrites (emptyManager 1) wsW).2 "light.a") ∧
    (histOf (runWrites (emptyManager 1) wsW).1 "light.a").length ≤ 1 ∧
    (1 < changedCount (runWrites (emptyManager 1) wsW).2 "light.a" →
      (histOf (runWrites (emptyManager 1) wsW).1 "light.a").length = 1)) :=
  ⟨by decide, C7_history_bound 1 wsW "light.a" (by decide)⟩
